import Mathlib

/-!
Verification of the GitHub identity-provider assembly logic of
`cmd/ocm/create/idp/github.go` (`buildGithubIdp` and `isValidHostname`).

The Go function is embedded shallowly:
* flag-bound globals (`args.*`) become the explicit `Args` record;
* the three `survey.AskOne` interactive prompts become the `Prompts` record,
  where `none` models an aborted prompt and `some a` the answer `a`
  (the survey input used here accepts an empty line, returning `""` with no
  error);
* every `return idpBuilder, err` of the Go function — which always returns the
  untouched zero-value named return `idpBuilder` alongside the error — becomes
  a pair of the zero builder and `some` error;
* printing to the terminal is dropped (it carries no data into the result);
  the registration URL base string, whose `url.Parse` failure is an error
  path of the function, is kept.
-/

/-- Characters `a`-`z` and `0`-`9`, the characters allowed at the start and
end of a DNS-1123 label. -/
def isLowerAlnumChar (c : Char) : Bool :=
  ('a' ≤ c && c ≤ 'z') || ('0' ≤ c && c ≤ '9')

/-- Characters allowed anywhere inside a DNS-1123 label. -/
def isDNS1123LabelChar (c : Char) : Bool :=
  isLowerAlnumChar c || c == '-'

/-- Go `strings.Split` with a one-character separator, on character lists:
always returns at least one (possibly empty) group. -/
def splitChar (sep : Char) : List Char → List (List Char)
  | [] => [[]]
  | c :: rest =>
    if c = sep then [] :: splitChar sep rest
    else
      match splitChar sep rest with
      | [] => [[c]]
      | g :: gs => (c :: g) :: gs

/-- Go `strings.Split(s, sep)` for a one-character separator. -/
def goSplit (s : String) (sep : Char) : List String :=
  (splitChar sep s.data).map List.asString

/-- Go `strings.Contains(s, sub)` for the one-character substrings used by
`buildGithubIdp` (`"/"` and `","`). -/
def goContains (s : String) (c : Char) : Bool :=
  s.data.contains c

/-- Go `strings.HasSuffix`. -/
def goHasSuffix (s suffix : String) : Bool :=
  suffix.data.isSuffixOf s.data

/-- A DNS-1123 label: non-empty, lowercase alphanumerics and hyphens, no
leading or trailing hyphen (the regex `[a-z0-9]([-a-z0-9]*[a-z0-9])?`). -/
def isDNS1123Label (l : List Char) : Bool :=
  !l.isEmpty && l.all isDNS1123LabelChar &&
    isLowerAlnumChar (l.headD '-') && isLowerAlnumChar (l.getLastD '-')

/-- Embedding of `k8s.io/apimachinery/pkg/util/validation.IsDNS1123Subdomain`
(as the boolean `len(errs) == 0` that `isValidHostname` tests): at most 253
characters and a sequence of dot-separated DNS-1123 labels. -/
def isDNS1123Subdomain (s : String) : Bool :=
  s.data.length ≤ 253 && (splitChar '.' s.data).all isDNS1123Label

/-- The digit-accumulating loop of Go `net.dtoi` (decimal to integer, values
capped at `0xFFFFFF`): returns the value, the number of characters consumed
and the ok flag. -/
def dtoiLoop : List Char → Nat → Nat → Nat × Nat × Bool
  | [], n, i => (n, i, i != 0)
  | c :: rest, n, i =>
    if '0' ≤ c ∧ c ≤ '9' then
      if n * 10 + (c.toNat - '0'.toNat) ≥ 0xFFFFFF then (0xFFFFFF, i, false)
      else dtoiLoop rest (n * 10 + (c.toNat - '0'.toNat)) (i + 1)
    else (n, i, i != 0)

/-- The hex-digit-accumulating loop of Go `net.xtoi`. -/
def xtoiLoop : List Char → Nat → Nat → Nat × Nat × Bool
  | [], n, i => (n, i, i != 0)
  | c :: rest, n, i =>
    if '0' ≤ c ∧ c ≤ '9' then
      if n * 16 + (c.toNat - '0'.toNat) ≥ 0xFFFFFF then (0, i, false)
      else xtoiLoop rest (n * 16 + (c.toNat - '0'.toNat)) (i + 1)
    else if 'a' ≤ c ∧ c ≤ 'f' then
      if n * 16 + (c.toNat - 'a'.toNat) + 10 ≥ 0xFFFFFF then (0, i, false)
      else xtoiLoop rest (n * 16 + (c.toNat - 'a'.toNat) + 10) (i + 1)
    else if 'A' ≤ c ∧ c ≤ 'F' then
      if n * 16 + (c.toNat - 'A'.toNat) + 10 ≥ 0xFFFFFF then (0, i, false)
      else xtoiLoop rest (n * 16 + (c.toNat - 'A'.toNat) + 10) (i + 1)
    else (n, i, i != 0)

/-- The field loop of Go 1.16 `net.parseIPv4` (the body of
`k8s.io/utils/net.ParseIPSloppy` for dotted-quad input, which permits leading
zeros): `k` fields remain, `acc` holds fields parsed so far (reversed). -/
def v4Loop : Nat → List Char → List Nat → Option (List Nat)
  | 0, s, acc => if s = [] then some acc.reverse else none
  | k + 1, s, acc =>
    match s with
    | [] => none
    | _ =>
      match (if acc = [] then some s else
              match s with
              | '.' :: rest => some rest
              | _ => none) with
      | none => none
      | some s2 =>
        match dtoiLoop s2 0 0 with
        | (n, c, ok) =>
          if ok = true ∧ n ≤ 0xFF then v4Loop k (s2.drop c) (n :: acc) else none

/-- Go 1.16 `net.parseIPv4` (sloppy variant), success and field values. -/
def parseIPv4Go (s : List Char) : Option (List Nat) :=
  v4Loop 4 s []

/-- The exit checks of Go 1.16 `net.parseIPv6`: no input may remain; fewer
than 16 bytes need an ellipsis, exactly 16 bytes forbid one.  (The byte
shuffling done on success does not affect success itself, which is all
`buildGithubIdp` observes through the `!= nil` test.) -/
def v6Finish (s : List Char) (i : Nat) (ellipsis : Option Nat) : Bool :=
  if s ≠ [] then false
  else if i < 16 then ellipsis.isSome
  else ellipsis.isNone

/-- The main loop of Go 1.16 `net.parseIPv6`, as the success predicate:
`i` counts bytes written so far, `ellipsis` records the `::` position.
The fuel only bounds the loop (each iteration adds at least 2 to `i`,
and the loop runs while `i < 16`, so 16 is more than enough). -/
def v6Loop : Nat → List Char → Nat → Option Nat → Bool
  | 0, s, i, ellipsis => v6Finish s i ellipsis
  | fuel + 1, s, i, ellipsis =>
    if 16 ≤ i then v6Finish s i ellipsis
    else
      match xtoiLoop s 0 0 with
      | (n, c, ok) =>
        if ok = false ∨ 0xFFFF < n then false
        else if c < s.length ∧ (s.drop c).headD ' ' = '.' then
          (if (ellipsis.isNone ∧ i ≠ 16 - 4) ∨ i + 4 > 16 then false
           else match parseIPv4Go s with
                | none => false
                | some _ => v6Finish [] (i + 4) ellipsis)
        else
          match s.drop c with
          | [] => v6Finish [] (i + 2) ellipsis
          | ':' :: rest =>
            (match rest with
             | [] => false
             | ':' :: rest2 =>
               if ellipsis.isSome then false
               else if rest2 = [] then v6Finish [] (i + 2) (some (i + 2))
               else v6Loop fuel rest2 (i + 2) (some (i + 2))
             | _ => v6Loop fuel rest (i + 2) ellipsis)
          | _ => false

/-- Go 1.16 `net.parseIPv6` as a success predicate (including the special
case of a leading `::`). -/
def parseIPv6Go (s : List Char) : Bool :=
  match s with
  | ':' :: ':' :: rest =>
    if rest = [] then true else v6Loop 16 rest 0 (some 0)
  | _ => v6Loop 16 s 0 none

/-- The dispatch scan of Go `net.parseIP`: the first `'.'` or `':'` decides
between IPv4 and IPv6 parsing. -/
def firstDotOrColon : List Char → Option Char
  | [] => none
  | c :: rest => if c = '.' ∨ c = ':' then some c else firstDotOrColon rest

/-- Index of the last occurrence of `c`, as used by Go `net.splitHostZone`. -/
def lastIndexOfAux (c : Char) : List Char → Nat → Option Nat → Option Nat
  | [], _, acc => acc
  | x :: rest, i, acc =>
    lastIndexOfAux c rest (i + 1) (if x = c then some i else acc)

/-- The host part of Go `net.splitHostZone`: the IPv6 zone starts after the
last `'%'` when that `'%'` is not the first character. -/
def splitHostZoneHost (s : List Char) : List Char :=
  match lastIndexOfAux '%' s 0 none with
  | some i => if 0 < i then s.take i else s
  | none => s

/-- Embedding of `k8s.io/utils/net.ParseIPSloppy` (Go 1.16 `net.ParseIP`), as
the `!= nil` success test used by `isValidHostname`. -/
def parseIPSloppyOk (s : String) : Bool :=
  match firstDotOrColon s.data with
  | some '.' => (parseIPv4Go s.data).isSome
  | some ':' => parseIPv6Go (splitHostZoneHost s.data)
  | _ => false

/-- `isValidHostname` from `cmd/ocm/create/idp/github.go`: the hostname is a
DNS-1123 subdomain or parses as an IP address. -/
def isValidHostname (hostname : String) : Bool :=
  isDNS1123Subdomain hostname || parseIPSloppyOk hostname

/-- The flag-bound inputs read by `buildGithubIdp` (the `args` globals of
`cmd/ocm/create/idp/cmd.go`, restricted to the fields the function reads). -/
structure Args where
  clientID : String
  clientSecret : String
  githubOrganizations : String
  githubTeams : String
  githubHostname : String
  mappingMethod : String
deriving DecidableEq, Repr

/-- The outcomes of the three `survey.AskOne` prompts `buildGithubIdp` may
issue, in source order: `none` models an aborted prompt (non-nil error from
`survey.AskOne`), `some a` the line `a` typed by the operator (the prompts
carry no validator, so an empty line is returned as `""` with no error).
A field is only consulted when the corresponding prompt is reached. -/
structure Prompts where
  teamsOrOrgs : Option String
  clientID : Option String
  clientSecret : Option String
deriving DecidableEq, Repr

/-- The error returns of `buildGithubIdp`, one constructor per `return`
site, carrying the data interpolated into the Go error message. -/
inductive BuildError where
  /-- "GitHub IDP only allows either organizations or teams, but not both" -/
  | conflict
  /-- "Expected a GitHub organization or team name" -/
  | inputTeamsOrOrgs
  /-- "Expected a GitHub application Client ID" -/
  | inputClientID
  /-- "Expected a GitHub application Client Secret" -/
  | inputClientSecret
  /-- "Error parsing URL: ..." (the offending base string) -/
  | urlParse (base : String)
  /-- "'%s' hostname must be a valid DNS subdomain or IP address" -/
  | invalidHostname (hostname : String)
  /-- "'%s' hostname cannot be equal to [*.]github.com" -/
  | githubHostname (hostname : String)
deriving DecidableEq, Repr

/-- The spec's `ValidationError` kind: hostname fails the DNS/IP syntax
check, or the hostname aliases github.com. -/
def BuildError.isValidationError : BuildError → Bool
  | .invalidHostname _ => true
  | .githubHostname _ => true
  | _ => false

/-- The `cmv1.GithubIdentityProviderBuilder` fields set by `buildGithubIdp`;
unset optional fields are `none`, mirroring the zero builder. -/
structure GithubIdentityProvider where
  clientID : String := ""
  clientSecret : String := ""
  hostname : Option String := none
  organizations : Option (List String) := none
  teams : Option (List String) := none
deriving DecidableEq, Repr

/-- The `cmv1.IdentityProviderBuilder` fields set by `buildGithubIdp`; the
all-`none` record `{}` is the Go zero-value builder returned on every error
path (the Go `Type` field is named `type_` here, `type` being reserved). -/
structure IdentityProviderBuilder where
  type_ : Option String := none
  name : Option String := none
  mappingMethod : Option String := none
  github : Option GithubIdentityProvider := none
deriving DecidableEq, Repr

/-- The mode predicate of `buildGithubIdp`:
`isInteractive := clientID == "" || clientSecret == "" ||
(organizations == "" && teams == "")`. -/
def isInteractive (clientID clientSecret organizations teams : String) : Bool :=
  clientID == "" || clientSecret == "" || (organizations == "" && teams == "")

/-- The register-URL base selection of `buildGithubIdp` (run on the values
of `organizations`/`teams` after interactive classification): a single
organization, or the organization of a single team, scopes the GitHub "new
application" page; otherwise the generic page is used. -/
def registerURLBase (organizations teams : String) : String :=
  if organizations ≠ "" ∧ goContains organizations ',' = false then
    "https://github.com/organizations/" ++ organizations ++ "/settings/applications/new"
  else if teams ≠ "" ∧ goContains teams ',' = false then
    "https://github.com/organizations/" ++ (goSplit teams '/').headD "" ++
      "/settings/applications/new"
  else
    "https://github.com/settings/applications/new"

/-- An ASCII control byte, which Go `net/url.Parse` rejects anywhere in a URL. -/
def isCtlByte (c : Char) : Bool :=
  c.toNat < 0x20 || c.toNat == 0x7f

/-- A hexadecimal digit as accepted in a `%xx` URL escape. -/
def isHexDigitGo (c : Char) : Bool :=
  c.isDigit || ('a' ≤ c && c ≤ 'f') || ('A' ≤ c && c ≤ 'F')

/-- Every `'%'` is followed by two hex digits. -/
def validPercentEscapes : List Char → Bool
  | [] => true
  | '%' :: a :: b :: rest => isHexDigitGo a && isHexDigitGo b && validPercentEscapes rest
  | '%' :: _ => false
  | _ :: rest => validPercentEscapes rest

/-- Modelled from the spec: success of Go `net/url.Parse` on the register
URL base (`URLError` branch, "should only occur on malformed organization
names containing URL-breaking characters").  `url.Parse` rejects control
bytes and malformed percent escapes; `buildGithubIdp` observes only
success/failure, the parsed URL feeding printed guidance text only. -/
def urlParseOk (s : String) : Bool :=
  s.data.all (fun c => !isCtlByte c) && validPercentEscapes s.data

/-- The post-prompt classification of `buildGithubIdp`: a `teamsOrOrgs`
containing `/` is taken as teams, anything else (the empty string included)
as organizations — run whether or not the prompt was issued, as in the
source, so a supplied organizations value is overwritten by the
never-prompted empty `teamsOrOrgs` when only client credentials were
missing.  Returns the (organizations, teams) pair. -/
def classifyTeamsOrOrgs (args : Args) (teamsOrOrgs : String) : String × String :=
  if goContains teamsOrOrgs '/' = true then (args.githubOrganizations, teamsOrOrgs)
  else (teamsOrOrgs, args.githubTeams)

/-- The interactive steps of `buildGithubIdp` after classification: the
register-URL construction and parse, then the client-ID and client-secret
prompts.  Returns the resolved `(clientID, clientSecret, organizations,
teams)`. -/
def interactiveTail (args : Args) (prompts : Prompts)
    (organizations teams : String) :
    Except BuildError (String × String × String × String) :=
  if urlParseOk (registerURLBase organizations teams) = false then
    .error (.urlParse (registerURLBase organizations teams))
  else
    match (if args.clientID = "" then
            match prompts.clientID with
            | none => Except.error BuildError.inputClientID
            | some a => Except.ok a
          else Except.ok args.clientID) with
    | .error e => .error e
    | .ok clientID =>
      match (if args.clientSecret = "" then
              match prompts.clientSecret with
              | none => Except.error BuildError.inputClientSecret
              | some a => Except.ok a
            else Except.ok args.clientSecret) with
      | .error e => .error e
      | .ok clientSecret => .ok (clientID, clientSecret, organizations, teams)

/-- The input-resolution phase of `buildGithubIdp`, in source order: the
organizations/teams conflict check, the `isInteractive` decision, the
combined organizations-or-teams prompt, the `/`-based classification, and
the interactive tail (register URL, client-ID and client-secret prompts). -/
def resolveInputs (args : Args) (prompts : Prompts) :
    Except BuildError (String × String × String × String) :=
  if args.githubOrganizations ≠ "" ∧ args.githubTeams ≠ "" then
    .error .conflict
  else if isInteractive args.clientID args.clientSecret
      args.githubOrganizations args.githubTeams then
    match (if args.githubOrganizations = "" ∧ args.githubTeams = "" then
            match prompts.teamsOrOrgs with
            | none => Except.error BuildError.inputTeamsOrOrgs
            | some a => Except.ok a
          else Except.ok "") with
    | .error e => .error e
    | .ok teamsOrOrgs =>
      interactiveTail args prompts (classifyTeamsOrOrgs args teamsOrOrgs).1
        (classifyTeamsOrOrgs args teamsOrOrgs).2
  else
    .ok (args.clientID, args.clientSecret, args.githubOrganizations, args.githubTeams)

/-- `githubIDP = githubIDP.Hostname(hostname)` guarded by `hostname != ""`. -/
def withHostname (hostname : String) (g : GithubIdentityProvider) :
    GithubIdentityProvider :=
  if hostname ≠ "" then { g with hostname := some hostname } else g

/-- The final organizations/teams attachment of `buildGithubIdp`:
`Organizations(strings.Split(organizations, ","))` when organizations is
non-empty, else `Teams(strings.Split(teams, ","))` when teams is non-empty,
else neither. -/
def attachOrgsTeams (g : GithubIdentityProvider) (organizations teams : String) :
    GithubIdentityProvider :=
  if organizations ≠ "" then
    { g with organizations := some (goSplit organizations ',') }
  else if teams ≠ "" then
    { g with teams := some (goSplit teams ',') }
  else g

/-- The assembly phase of `buildGithubIdp`, from the resolved inputs: the
hostname syntax check and github.com-alias check (in that order, both only
when a hostname was supplied), then the construction of the complete
identity-provider builder. -/
def assembleIdp (hostname mappingMethod idpName clientID clientSecret
    organizations teams : String) : Except BuildError IdentityProviderBuilder :=
  if hostname ≠ "" ∧ isValidHostname hostname = false then
    .error (.invalidHostname hostname)
  else if hostname ≠ "" ∧
      (hostname = "github.com" ∨ goHasSuffix hostname ".github.com" = true) then
    .error (.githubHostname hostname)
  else
    .ok { type_ := some "GithubIdentityProvider",
          name := some idpName,
          mappingMethod := some mappingMethod,
          github := some (attachOrgsTeams
            (withHostname hostname { clientID := clientID, clientSecret := clientSecret })
            organizations teams) }

/-- `buildGithubIdp` as resolution followed by assembly. -/
def buildGithubIdpE (args : Args) (idpName : String) (prompts : Prompts) :
    Except BuildError IdentityProviderBuilder :=
  match resolveInputs args prompts with
  | .error e => .error e
  | .ok (clientID, clientSecret, organizations, teams) =>
    assembleIdp args.githubHostname args.mappingMethod idpName
      clientID clientSecret organizations teams

/-- `buildGithubIdp` with its Go signature shape: the (builder, error) pair,
where every error is paired with the untouched zero-value builder `{}`. -/
def buildGithubIdp (args : Args) (idpName : String) (prompts : Prompts) :
    IdentityProviderBuilder × Option BuildError :=
  match buildGithubIdpE args idpName prompts with
  | .ok b => (b, none)
  | .error e => ({}, some e)

/-! ### Helper lemmas -/

theorem resolveInputs_conflict (args : Args) (prompts : Prompts)
    (ho : args.githubOrganizations ≠ "") (ht : args.githubTeams ≠ "") :
    resolveInputs args prompts = .error .conflict := by
  unfold resolveInputs
  rw [if_pos ⟨ho, ht⟩]

theorem resolveInputs_noninteractive (args : Args) (prompts : Prompts)
    (hni : isInteractive args.clientID args.clientSecret
      args.githubOrganizations args.githubTeams = false)
    (hc : ¬(args.githubOrganizations ≠ "" ∧ args.githubTeams ≠ "")) :
    resolveInputs args prompts
      = .ok (args.clientID, args.clientSecret,
             args.githubOrganizations, args.githubTeams) := by
  unfold resolveInputs
  rw [if_neg hc, if_neg (by simp [hni])]

theorem withHostname_organizations (h : String) (g : GithubIdentityProvider) :
    (withHostname h g).organizations = g.organizations := by
  unfold withHostname
  split <;> rfl

theorem withHostname_teams (h : String) (g : GithubIdentityProvider) :
    (withHostname h g).teams = g.teams := by
  unfold withHostname
  split <;> rfl

theorem attachOrgsTeams_hostname (g : GithubIdentityProvider) (o t : String) :
    (attachOrgsTeams g o t).hostname = g.hostname := by
  unfold attachOrgsTeams
  split
  · rfl
  · split <;> rfl

theorem attachOrgsTeams_exclusive (g : GithubIdentityProvider) (o t : String)
    (ho : g.organizations = none) (ht : g.teams = none) :
    (attachOrgsTeams g o t).organizations = none ∨
      (attachOrgsTeams g o t).teams = none := by
  unfold attachOrgsTeams
  split
  · exact Or.inr ht
  · split
    · exact Or.inl ho
    · exact Or.inl ho

theorem assembleIdp_ok_shape (h m n cid cs o t : String)
    (b : IdentityProviderBuilder)
    (hok : assembleIdp h m n cid cs o t = .ok b) :
    b = { type_ := some "GithubIdentityProvider", name := some n,
          mappingMethod := some m,
          github := some (attachOrgsTeams
            (withHostname h { clientID := cid, clientSecret := cs }) o t) } := by
  unfold assembleIdp at hok
  split at hok
  · exact absurd hok (by simp)
  · split at hok
    · exact absurd hok (by simp)
    · simpa using hok.symm

theorem buildGithubIdpE_ok (args : Args) (idpName : String) (prompts : Prompts)
    (b : IdentityProviderBuilder)
    (hok : buildGithubIdpE args idpName prompts = .ok b) :
    ∃ cid cs o t, resolveInputs args prompts = .ok (cid, cs, o, t) ∧
      assembleIdp args.githubHostname args.mappingMethod idpName cid cs o t
        = .ok b := by
  unfold buildGithubIdpE at hok
  cases hres : resolveInputs args prompts with
  | error e => rw [hres] at hok; simp at hok
  | ok r =>
    rw [hres] at hok
    obtain ⟨cid, cs, o, t⟩ := r
    exact ⟨cid, cs, o, t, rfl, hok⟩

/-! ### Claim theorems -/

/-- C1: whenever both `organizations` and `teams` are supplied,
`buildGithubIdp` fails with the conflict ("only allows either organizations
or teams") error, whatever every other field holds, and for every possible
prompt outcome — so before any interactive prompting can matter. -/
theorem conflict_rejected_before_prompts (args : Args) (idpName : String)
    (prompts : Prompts)
    (ho : args.githubOrganizations ≠ "") (ht : args.githubTeams ≠ "") :
    buildGithubIdp args idpName prompts = ({}, some BuildError.conflict) := by
  unfold buildGithubIdp buildGithubIdpE
  rw [resolveInputs_conflict args prompts ho ht]

theorem conflict_rejected_before_prompts_witness :
    buildGithubIdp ⟨"x", "y", "acme", "acme/dev", "", "m"⟩ "idp" ⟨none, none, none⟩
      = ({}, some BuildError.conflict) :=
  conflict_rejected_before_prompts _ "idp" _ (by decide) (by decide)

/-- C3: the mode resolver is the pure predicate "clientID empty, or
clientSecret empty, or both organizations and teams empty"; and with
clientID, clientSecret and one of organizations/teams all non-empty the
whole run is independent of every prompt outcome — no prompt is issued. -/
theorem modeResolver_pure (args : Args) (idpName : String) (p p' : Prompts) :
    (isInteractive args.clientID args.clientSecret
        args.githubOrganizations args.githubTeams = true
      ↔ (args.clientID = "" ∨ args.clientSecret = "" ∨
          (args.githubOrganizations = "" ∧ args.githubTeams = ""))) ∧
    (args.clientID ≠ "" → args.clientSecret ≠ "" →
      (args.githubOrganizations ≠ "" ∨ args.githubTeams ≠ "") →
      buildGithubIdp args idpName p = buildGithubIdp args idpName p') := by
  constructor
  · simp [isInteractive, or_assoc]
  · intro h1 h2 h3
    by_cases hc : args.githubOrganizations ≠ "" ∧ args.githubTeams ≠ ""
    · unfold buildGithubIdp buildGithubIdpE
      rw [resolveInputs_conflict args p hc.1 hc.2,
          resolveInputs_conflict args p' hc.1 hc.2]
    · have hni : isInteractive args.clientID args.clientSecret
          args.githubOrganizations args.githubTeams = false := by
        rcases h3 with h3 | h3 <;> simp [isInteractive, h1, h2, h3]
      unfold buildGithubIdp buildGithubIdpE
      rw [resolveInputs_noninteractive args p hni hc,
          resolveInputs_noninteractive args p' hni hc]

theorem modeResolver_pure_witness :
    buildGithubIdp ⟨"x", "y", "acme", "", "", "m"⟩ "idp"
        ⟨some "z", some "q", some "r"⟩
      = buildGithubIdp ⟨"x", "y", "acme", "", "", "m"⟩ "idp" ⟨none, none, none⟩ :=
  (modeResolver_pure _ "idp" _ _).2 (by decide) (by decide) (Or.inl (by decide))

/-- C8: assembly is atomic — every error outcome comes with the untouched
zero-value builder `{}`, and every non-error outcome is a complete builder
with provider type tag, idp name and mapping method attached. -/
theorem buildGithubIdp_atomic (args : Args) (idpName : String) (prompts : Prompts) :
    (∀ e, (buildGithubIdp args idpName prompts).2 = some e →
       (buildGithubIdp args idpName prompts).1 = {}) ∧
    ((buildGithubIdp args idpName prompts).2 = none →
       ∃ g, (buildGithubIdp args idpName prompts).1 =
         { type_ := some "GithubIdentityProvider", name := some idpName,
           mappingMethod := some args.mappingMethod, github := some g }) := by
  unfold buildGithubIdp
  cases hE : buildGithubIdpE args idpName prompts with
  | error e => exact ⟨fun _ _ => rfl, by simp⟩
  | ok b =>
    refine ⟨fun e h => absurd h (by simp), fun _ => ?_⟩
    obtain ⟨cid, cs, o, t, hres, hasm⟩ :=
      buildGithubIdpE_ok args idpName prompts b hE
    exact ⟨_, assembleIdp_ok_shape _ _ _ _ _ _ _ _ hasm⟩

theorem buildGithubIdp_atomic_witness :
    (buildGithubIdp ⟨"x", "y", "a", "b", "", "m"⟩ "idp" ⟨none, none, none⟩).1
      = ({} : IdentityProviderBuilder) :=
  (buildGithubIdp_atomic ⟨"x", "y", "a", "b", "", "m"⟩ "idp" ⟨none, none, none⟩).1
    BuildError.conflict (by decide)

/-- C9: in every successfully produced configuration the organizations and
teams lists are mutually exclusive — at least one of them is unset. -/
theorem orgs_teams_mutually_exclusive (args : Args) (idpName : String)
    (prompts : Prompts) (b : IdentityProviderBuilder)
    (hsucc : buildGithubIdp args idpName prompts = (b, none)) :
    ∃ g, b.github = some g ∧ (g.organizations = none ∨ g.teams = none) := by
  have hE : buildGithubIdpE args idpName prompts = .ok b := by
    unfold buildGithubIdp at hsucc
    cases hE : buildGithubIdpE args idpName prompts with
    | error e => rw [hE] at hsucc; simp at hsucc
    | ok b' =>
      rw [hE] at hsucc
      simp only [Prod.mk.injEq] at hsucc
      rw [hsucc.1]
  obtain ⟨cid, cs, o, t, hres, hasm⟩ := buildGithubIdpE_ok args idpName prompts b hE
  rw [assembleIdp_ok_shape _ _ _ _ _ _ _ _ hasm]
  refine ⟨_, rfl, attachOrgsTeams_exclusive _ o t ?_ ?_⟩
  · rw [withHostname_organizations]
  · rw [withHostname_teams]

theorem orgs_teams_mutually_exclusive_witness :
    ∃ g, ({ type_ := some "GithubIdentityProvider", name := some "idp",
            mappingMethod := some "m",
            github := some { clientID := "x", clientSecret := "y",
                             organizations := some ["acme"] } }
          : IdentityProviderBuilder).github = some g ∧
      (g.organizations = none ∨ g.teams = none) :=
  orgs_teams_mutually_exclusive ⟨"x", "y", "acme", "", "", "m"⟩ "idp"
    ⟨none, none, none⟩ _ (by decide)

theorem assembleIdp_mapErr (h m m' n cid cs o t : String) :
    (∃ e, assembleIdp h m n cid cs o t = .error e ∧
          assembleIdp h m' n cid cs o t = .error e) ∨
    (∃ b b', assembleIdp h m n cid cs o t = .ok b ∧
             assembleIdp h m' n cid cs o t = .ok b') := by
  by_cases h1 : h ≠ "" ∧ isValidHostname h = false
  · simp only [assembleIdp, if_pos h1]
    exact Or.inl ⟨_, rfl, rfl⟩
  · by_cases h2 : h ≠ "" ∧ (h = "github.com" ∨ goHasSuffix h ".github.com" = true)
    · simp only [assembleIdp, if_neg h1, if_pos h2]
      exact Or.inl ⟨_, rfl, rfl⟩
    · simp only [assembleIdp, if_neg h1, if_neg h2]
      exact Or.inr ⟨_, _, rfl, rfl⟩

theorem resolveInputs_mappingMethod (args : Args) (m : String) (prompts : Prompts) :
    resolveInputs { args with mappingMethod := m } prompts
      = resolveInputs args prompts := by
  cases args
  rfl

/-- C10: the mapping-method string is never validated — replacing it by any
string (empty or outside the documented enum) can never change whether
`buildGithubIdp` fails, and on success the string is copied verbatim into
the configuration. -/
theorem mappingMethod_passthrough (args : Args) (m idpName : String)
    (prompts : Prompts) :
    ((buildGithubIdp { args with mappingMethod := m } idpName prompts).2
       = (buildGithubIdp args idpName prompts).2) ∧
    ((buildGithubIdp { args with mappingMethod := m } idpName prompts).2 = none →
       (buildGithubIdp { args with mappingMethod := m } idpName prompts).1.mappingMethod
         = some m) := by
  obtain ⟨cid0, cs0, o0, t0, h0, mm0⟩ := args
  have hres := resolveInputs_mappingMethod ⟨cid0, cs0, o0, t0, h0, mm0⟩ m prompts
  constructor
  · unfold buildGithubIdp buildGithubIdpE
    rw [hres]
    cases hr : resolveInputs ⟨cid0, cs0, o0, t0, h0, mm0⟩ prompts with
    | error e => rfl
    | ok r =>
      obtain ⟨cid, cs, o, t⟩ := r
      show (match assembleIdp h0 m idpName cid cs o t with
            | .ok b => (b, none)
            | .error e => (({} : IdentityProviderBuilder), some e)).2
        = (match assembleIdp h0 mm0 idpName cid cs o t with
            | .ok b => (b, none)
            | .error e => (({} : IdentityProviderBuilder), some e)).2
      rcases assembleIdp_mapErr h0 m mm0 idpName cid cs o t with
        ⟨e, he1, he2⟩ | ⟨b, b', hb1, hb2⟩
      · rw [he1, he2]
      · rw [hb1, hb2]
  · intro hnone
    cases hE : buildGithubIdpE ⟨cid0, cs0, o0, t0, h0, m⟩ idpName prompts with
    | error e =>
      unfold buildGithubIdp at hnone
      rw [hE] at hnone
      simp at hnone
    | ok b =>
      obtain ⟨cid, cs, o, t, _, hasm⟩ :=
        buildGithubIdpE_ok ⟨cid0, cs0, o0, t0, h0, m⟩ idpName prompts b hE
      unfold buildGithubIdp
      rw [hE, assembleIdp_ok_shape _ _ _ _ _ _ _ _ hasm]

theorem mappingMethod_passthrough_witness :
    (buildGithubIdp ⟨"x", "y", "acme", "", "", "weird-not-in-enum"⟩ "idp"
        ⟨none, none, none⟩).1.mappingMethod = some "weird-not-in-enum" :=
  (mappingMethod_passthrough ⟨"x", "y", "acme", "", "", "claim"⟩
      "weird-not-in-enum" "idp" ⟨none, none, none⟩).2 (by decide)

/-- C2 (code bug): on the concrete input where only the client ID is
missing (`clientID = ""`, `clientSecret = "y"`) and `organizations = "acme"`
was supplied up front, `buildGithubIdp` succeeds after the client-ID prompt
but produces a configuration whose organizations (and teams) lists are both
unset: the unconditional post-prompt classification overwrites the supplied
organizations with the never-prompted empty `teamsOrOrgs`, so the comma-split
round trip (`["acme"]`) claimed by the spec fails. -/
theorem organizations_dropped_in_interactive_mode :
    (buildGithubIdp ⟨"", "y", "acme", "", "", "claim"⟩ "idp"
        ⟨none, some "client-id", none⟩).2 = none ∧
    (buildGithubIdp ⟨"", "y", "acme", "", "", "claim"⟩ "idp"
        ⟨none, some "client-id", none⟩).1.github
      = some { clientID := "client-id", clientSecret := "y",
               organizations := none, teams := none } ∧
    goSplit "acme" ',' = ["acme"] := by
  refine ⟨rfl, rfl, rfl⟩

theorem buildGithubIdp_of_resolve_error (args : Args) (idpName : String)
    (prompts : Prompts) (cid cs o t : String) (e : BuildError)
    (hres : resolveInputs args prompts = .ok (cid, cs, o, t))
    (hasm : assembleIdp args.githubHostname args.mappingMethod idpName
      cid cs o t = .error e) :
    buildGithubIdp args idpName prompts = ({}, some e) := by
  unfold buildGithubIdp buildGithubIdpE
  rw [hres]
  show (match assembleIdp args.githubHostname args.mappingMethod idpName
          cid cs o t with
        | .ok b => (b, none)
        | .error e => (({} : IdentityProviderBuilder), some e)) = ({}, some e)
  rw [hasm]

theorem buildGithubIdp_of_resolve_ok (args : Args) (idpName : String)
    (prompts : Prompts) (cid cs o t : String) (b : IdentityProviderBuilder)
    (hres : resolveInputs args prompts = .ok (cid, cs, o, t))
    (hasm : assembleIdp args.githubHostname args.mappingMethod idpName
      cid cs o t = .ok b) :
    buildGithubIdp args idpName prompts = (b, none) := by
  unfold buildGithubIdp buildGithubIdpE
  rw [hres]
  show (match assembleIdp args.githubHostname args.mappingMethod idpName
          cid cs o t with
        | .ok b => (b, none)
        | .error e => (({} : IdentityProviderBuilder), some e)) = (b, none)
  rw [hasm]

/-- C4 counterexample: "github.com" is a syntactically valid DNS-1123
subdomain, yet on an input that reaches the hostname step with it supplied,
assembly rejects it — refuting "accepts it unchanged if and only if it is a
syntactically valid DNS-1123 subdomain or IP address". -/
theorem hostname_accept_iff_syntax_cex :
    isValidHostname "github.com" = true ∧
    (buildGithubIdp ⟨"x", "y", "acme", "", "github.com", "m"⟩ "idp"
        ⟨none, none, none⟩).2
      = some (BuildError.githubHostname "github.com") := by
  exact ⟨by decide, by decide⟩

/-- C4 (amended): for every non-empty supplied hostname, on a run whose
input-resolution phase succeeds, assembly accepts the hostname unchanged iff
it is a syntactically valid DNS-1123 subdomain or IPv4/IPv6 address AND does
not alias github.com (neither equal to `github.com` nor ending in
`.github.com`); a syntactically invalid hostname fails with the
ValidationError naming the hostname. -/
theorem hostname_validation_gate (args : Args) (idpName : String)
    (prompts : Prompts) (cid cs o t : String)
    (hres : resolveInputs args prompts = .ok (cid, cs, o, t))
    (hh : args.githubHostname ≠ "") :
    ((buildGithubIdp args idpName prompts).2 = none ↔
       (isValidHostname args.githubHostname = true ∧
        args.githubHostname ≠ "github.com" ∧
        goHasSuffix args.githubHostname ".github.com" = false)) ∧
    ((buildGithubIdp args idpName prompts).2 = none →
       ∃ g, (buildGithubIdp args idpName prompts).1.github = some g ∧
         g.hostname = some args.githubHostname) ∧
    (isValidHostname args.githubHostname = false →
       (buildGithubIdp args idpName prompts).2
         = some (BuildError.invalidHostname args.githubHostname)) := by
  by_cases h1 : isValidHostname args.githubHostname = false
  · have e1 : assembleIdp args.githubHostname args.mappingMethod idpName
        cid cs o t = .error (.invalidHostname args.githubHostname) := by
      unfold assembleIdp
      rw [if_pos ⟨hh, h1⟩]
    rw [buildGithubIdp_of_resolve_error args idpName prompts cid cs o t _ hres e1]
    refine ⟨⟨fun hc => absurd hc (by simp), fun hc => ?_⟩,
            fun hc => absurd hc (by simp), fun _ => rfl⟩
    rw [hc.1] at h1
    exact absurd h1 (by simp)
  · have hv : isValidHostname args.githubHostname = true := by
      cases hb : isValidHostname args.githubHostname
      · exact absurd hb h1
      · rfl
    by_cases h2 : args.githubHostname = "github.com" ∨
        goHasSuffix args.githubHostname ".github.com" = true
    · have e2 : assembleIdp args.githubHostname args.mappingMethod idpName
          cid cs o t = .error (.githubHostname args.githubHostname) := by
        unfold assembleIdp
        rw [if_neg fun hc => h1 hc.2, if_pos ⟨hh, h2⟩]
      rw [buildGithubIdp_of_resolve_error args idpName prompts cid cs o t _ hres e2]
      refine ⟨⟨fun hc => absurd hc (by simp), fun hc => ?_⟩,
              fun hc => absurd hc (by simp), fun hf => absurd hf h1⟩
      rcases h2 with h2 | h2
      · exact absurd h2 hc.2.1
      · rw [hc.2.2] at h2
        exact absurd h2 (by simp)
    · have hng : args.githubHostname ≠ "github.com" := fun hc => h2 (Or.inl hc)
      have hns : goHasSuffix args.githubHostname ".github.com" = false := by
        cases hb : goHasSuffix args.githubHostname ".github.com"
        · rfl
        · exact absurd (Or.inr hb) h2
      have e3 : assembleIdp args.githubHostname args.mappingMethod idpName
          cid cs o t
          = .ok { type_ := some "GithubIdentityProvider", name := some idpName,
                  mappingMethod := some args.mappingMethod,
                  github := some (attachOrgsTeams
                    (withHostname args.githubHostname
                      { clientID := cid, clientSecret := cs }) o t) } := by
        unfold assembleIdp
        rw [if_neg fun hc => h1 hc.2, if_neg fun hc => h2 hc.2]
      rw [buildGithubIdp_of_resolve_ok args idpName prompts cid cs o t _ hres e3]
      refine ⟨⟨fun _ => ⟨hv, hng, hns⟩, fun _ => rfl⟩, fun _ => ?_,
              fun hf => absurd hf h1⟩
      refine ⟨_, rfl, ?_⟩
      rw [attachOrgsTeams_hostname]
      unfold withHostname
      rw [if_pos hh]

theorem hostname_validation_gate_witness :
    (buildGithubIdp ⟨"x", "y", "acme", "", "not_valid_host!", "m"⟩ "idp"
        ⟨none, none, none⟩).2
      = some (BuildError.invalidHostname "not_valid_host!") :=
  (hostname_validation_gate ⟨"x", "y", "acme", "", "not_valid_host!", "m"⟩
      "idp" ⟨none, none, none⟩ "x" "y" "acme" "" rfl (by decide)).2.2 (by decide)

/-- C5: on a run whose input-resolution phase succeeds, a supplied hostname
equal to `github.com` or ending in `.github.com` always makes assembly fail
with a ValidationError (the github-alias rejection when the hostname is
syntactically valid, the syntax rejection otherwise — both ValidationErrors
in the spec's taxonomy). -/
theorem github_alias_rejected (args : Args) (idpName : String)
    (prompts : Prompts) (cid cs o t : String)
    (hres : resolveInputs args prompts = .ok (cid, cs, o, t))
    (halias : args.githubHostname = "github.com" ∨
              goHasSuffix args.githubHostname ".github.com" = true) :
    ∃ e, (buildGithubIdp args idpName prompts).2 = some e ∧
      e.isValidationError = true := by
  have hh : args.githubHostname ≠ "" := by
    rcases halias with h | h
    · rw [h]; decide
    · intro h0; rw [h0] at h; exact absurd h (by decide)
  by_cases h1 : isValidHostname args.githubHostname = false
  · have e1 : assembleIdp args.githubHostname args.mappingMethod idpName
        cid cs o t = .error (.invalidHostname args.githubHostname) := by
      unfold assembleIdp
      rw [if_pos ⟨hh, h1⟩]
    rw [buildGithubIdp_of_resolve_error args idpName prompts cid cs o t _ hres e1]
    exact ⟨_, rfl, rfl⟩
  · have e2 : assembleIdp args.githubHostname args.mappingMethod idpName
        cid cs o t = .error (.githubHostname args.githubHostname) := by
      unfold assembleIdp
      rw [if_neg fun hc => h1 hc.2, if_pos ⟨hh, halias⟩]
    rw [buildGithubIdp_of_resolve_error args idpName prompts cid cs o t _ hres e2]
    exact ⟨_, rfl, rfl⟩

theorem github_alias_rejected_witness :
    ∃ e, (buildGithubIdp ⟨"x", "y", "acme", "", "x.github.com", "m"⟩ "idp"
        ⟨none, none, none⟩).2 = some e ∧ e.isValidationError = true :=
  github_alias_rejected ⟨"x", "y", "acme", "", "x.github.com", "m"⟩ "idp"
    ⟨none, none, none⟩ "x" "y" "acme" "" rfl (Or.inr (by decide))

theorem splitChar_ne_nil (sep : Char) (l : List Char) : splitChar sep l ≠ [] := by
  cases l with
  | nil => simp [splitChar]
  | cons c rest =>
    unfold splitChar
    split
    · simp
    · split <;> simp

theorem splitChar_headD (sep : Char) (l : List Char) :
    (splitChar sep l).headD [] = l.takeWhile (fun c => c != sep) := by
  induction l with
  | nil => simp [splitChar]
  | cons c rest ih =>
    unfold splitChar
    by_cases h : c = sep
    · rw [if_pos h]
      simp [List.takeWhile_cons, h]
    · rw [if_neg h]
      cases hs : splitChar sep rest with
      | nil => exact absurd hs (splitChar_ne_nil sep rest)
      | cons g gs =>
        rw [hs] at ih
        simp only [List.headD_cons] at ih
        simp [List.takeWhile_cons, h, ih]

theorem goSplit_headD (s : String) (sep : Char) :
    (goSplit s sep).headD "" = (s.data.takeWhile (fun c => c != sep)).asString := by
  unfold goSplit
  cases hs : splitChar sep s.data with
  | nil => exact absurd hs (splitChar_ne_nil sep s.data)
  | cons g gs =>
    have hh := splitChar_headD sep s.data
    rw [hs] at hh
    simp only [List.headD_cons] at hh
    simp [hh]

/-- C6: the registration URL base (computed from the post-classification
organizations/teams) is the organization-scoped path for a single (comma-free)
non-empty organization; otherwise, for a single (comma-free) non-empty team it
is the organization-scoped path for the text before the first `/` of the
team; in every other case it is the generic path. -/
theorem registerURLBase_trichotomy (organizations teams : String) :
    (organizations ≠ "" → goContains organizations ',' = false →
       registerURLBase organizations teams
         = "https://github.com/organizations/" ++ organizations ++
             "/settings/applications/new") ∧
    (¬(organizations ≠ "" ∧ goContains organizations ',' = false) →
     teams ≠ "" → goContains teams ',' = false →
       registerURLBase organizations teams
         = "https://github.com/organizations/" ++
             (teams.data.takeWhile (fun c => c != '/')).asString ++
             "/settings/applications/new") ∧
    (¬(organizations ≠ "" ∧ goContains organizations ',' = false) →
     ¬(teams ≠ "" ∧ goContains teams ',' = false) →
       registerURLBase organizations teams
         = "https://github.com/settings/applications/new") := by
  refine ⟨fun h1 h2 => ?_, fun h0 h1 h2 => ?_, fun h0 h1 => ?_⟩
  · unfold registerURLBase
    rw [if_pos ⟨h1, h2⟩]
  · unfold registerURLBase
    rw [if_neg h0, if_pos ⟨h1, h2⟩, goSplit_headD]
  · unfold registerURLBase
    rw [if_neg h0, if_neg h1]

theorem registerURLBase_trichotomy_witness :
    registerURLBase "acme" ""
      = "https://github.com/organizations/acme/settings/applications/new" ∧
    registerURLBase "" "acme/devs"
      = "https://github.com/organizations/" ++
          ((String.data "acme/devs").takeWhile (fun c => c != '/')).asString ++
          "/settings/applications/new" ∧
    registerURLBase "acme,beta" ""
      = "https://github.com/settings/applications/new" :=
  ⟨(registerURLBase_trichotomy "acme" "").1 (by decide) (by decide),
   (registerURLBase_trichotomy "" "acme/devs").2.1 (by decide) (by decide)
     (by decide),
   (registerURLBase_trichotomy "acme,beta" "").2.2 (by decide) (by decide)⟩

theorem interactiveTail_ok_inv (args : Args) (prompts : Prompts)
    (organizations teams cid cs o t : String)
    (h : interactiveTail args prompts organizations teams
      = .ok (cid, cs, o, t)) :
    o = organizations ∧ t = teams := by
  unfold interactiveTail at h
  split at h
  · simp at h
  · split at h
    · simp at h
    · split at h
      · simp at h
      · simp only [Except.ok.injEq, Prod.mk.injEq] at h
        exact ⟨h.2.2.1.symm, h.2.2.2.symm⟩

/-- C7 counterexample: with organizations and teams both empty and an empty
(but not aborted) answer to the combined prompt, `buildGithubIdp` succeeds —
refuting the part of the claim stating the prompt "fails with an InputError
… when the returned answer is the empty string" (the survey prompt carries
no required-input validator). -/
theorem empty_prompt_answer_accepted :
    (buildGithubIdp ⟨"x", "y", "", "", "", "m"⟩ "idp"
        ⟨some "", none, none⟩).2 = none := by
  decide

/-- C7 (amended): with organizations and teams both empty, the combined
organizations-or-teams prompt fails with an InputError exactly when it is
aborted; an answered prompt (empty answer included) is accepted, and on a
successful resolution the answer is classified as teams when it contains
`/` and as organizations otherwise. -/
theorem combined_prompt_behaviour (args : Args) (idpName : String)
    (prompts : Prompts)
    (ho : args.githubOrganizations = "") (ht : args.githubTeams = "") :
    (prompts.teamsOrOrgs = none →
       buildGithubIdp args idpName prompts
         = ({}, some BuildError.inputTeamsOrOrgs)) ∧
    (∀ a cid cs o t, prompts.teamsOrOrgs = some a →
       resolveInputs args prompts = .ok (cid, cs, o, t) →
       (goContains a '/' = true → o = "" ∧ t = a) ∧
       (goContains a '/' = false → o = a ∧ t = "")) := by
  have hnc : ¬(args.githubOrganizations ≠ "" ∧ args.githubTeams ≠ "") :=
    fun hc => hc.1 ho
  have hint : isInteractive args.clientID args.clientSecret
      args.githubOrganizations args.githubTeams = true := by
    simp [isInteractive, ho, ht]
  constructor
  · intro hnone
    have hres : resolveInputs args prompts = .error .inputTeamsOrOrgs := by
      unfold resolveInputs
      rw [if_neg hnc, if_pos hint, if_pos ⟨ho, ht⟩, hnone]
    unfold buildGithubIdp buildGithubIdpE
    rw [hres]
  · intro a cid cs o t hsome hres
    unfold resolveInputs at hres
    rw [if_neg hnc, if_pos hint, if_pos ⟨ho, ht⟩, hsome] at hres
    replace hres : interactiveTail args prompts
        (classifyTeamsOrOrgs args a).1 (classifyTeamsOrOrgs args a).2
        = .ok (cid, cs, o, t) := hres
    have hot := interactiveTail_ok_inv args prompts _ _ cid cs o t hres
    constructor
    · intro hslash
      have hcl : classifyTeamsOrOrgs args a = ("", a) := by
        unfold classifyTeamsOrOrgs
        rw [if_pos hslash, ho]
      rw [hcl] at hot
      exact hot
    · intro hslash
      have hcl : classifyTeamsOrOrgs args a = (a, "") := by
        unfold classifyTeamsOrOrgs
        rw [if_neg (by simp [hslash]), ht]
      rw [hcl] at hot
      exact hot

theorem combined_prompt_behaviour_witness :
    buildGithubIdp ⟨"x", "y", "", "", "", "m"⟩ "idp" ⟨none, none, none⟩
      = ({}, some BuildError.inputTeamsOrOrgs) :=
  (combined_prompt_behaviour ⟨"x", "y", "", "", "", "m"⟩ "idp"
      ⟨none, none, none⟩ rfl rfl).1 rfl
